import Mathlib

/-!
Shallow embedding of the obliviate task-loop runner (`main.go`) and proofs
about its task state machine, model routing, failure classification,
fallback handling, and execution-loop write ordering.

Conventions of the embedding:
* Go strings are Lean `String`s; Go `error` values are `Option String`
  (`none` = nil error) carrying the error text.
* Go `int` is Lean `Int`.
* External effects (agent subprocesses, verify commands, `git rev-parse`,
  the clock) are oracles passed in an `AgentEnv`; file writes performed by
  the loop are recorded as an explicit `StoreEvent` trace in program order.
* The source reads the package constant `maxAttempts = 2`; here the attempts
  cap is a parameter `K` of the functions that consult it (the repository's
  tests call `nextRunnableTaskIndex` with an explicit cap argument).
-/

namespace Obliviate

/-- Status constants from `main.go`. -/
def statusTodo : String := "todo"

/-- Status constant `in_progress`. -/
def statusInProgress : String := "in_progress"

/-- Status constant `done`. -/
def statusDone : String := "done"

/-- Status constant `failed`. -/
def statusFailed : String := "failed"

/-- Status constant `blocked`. -/
def statusBlocked : String := "blocked"

/-- The source's package constant `maxAttempts`. -/
def maxAttempts : Int := 2

/-- The `Task` record from `main.go` (JSONL task queue entry). -/
structure Task where
  id : String
  title : String
  spec : String
  verify : List String
  status : String
  modelHint : String
  priority : String
  attempts : Int
  lastError : String
  source : String
  createdAt : String
  updatedAt : String
deriving Repr, DecidableEq, Inhabited

/-- The `RunLog` record from `main.go` (runs.jsonl journal entry). Go's
omitted optional fields are empty strings. -/
structure RunLog where
  taskId : String
  status : String
  provider : String
  model : String
  primaryProvider : String
  primaryModel : String
  fallbackProvider : String
  fallbackModel : String
  fallbackReason : String
  startedAt : String
  finishedAt : String
  error : String
  outputTail : String
  verifyFailed : String
deriving Repr, DecidableEq, Inhabited

/-- The `fallbackAttempt` record from `main.go`. -/
structure FallbackAttempt where
  primaryProvider : String
  primaryModel : String
  fallbackProvider : String
  fallbackModel : String
  reason : String
deriving Repr, DecidableEq, Inhabited

/-- First index in a list satisfying a predicate: the scan shape shared by
the Go loops in `nextRunnableTaskIndex` and `findTaskIndex` (which return
`-1` when no index matches; here `none`). -/
def firstIdxWith {α : Type} (p : α → Bool) : List α → Option Nat
  | [] => none
  | a :: as => if p a then some 0 else (firstIdxWith p as).map (· + 1)

/-- Embedding of `findTaskIndex`: first index whose task id equals `taskID`. -/
def findTaskIndex (tasks : List Task) (taskID : String) : Option Nat :=
  firstIdxWith (fun t => t.id == taskID) tasks

/-- Embedding of `nextRunnableTaskIndex`: first `todo` index, else first
`failed` index with `attempts < K`, else none. The source consults the
package constant `maxAttempts` for the cap; it is the parameter `K` here. -/
def nextRunnableTaskIndex (K : Int) (tasks : List Task) : Option Nat :=
  match firstIdxWith (fun t => t.status == statusTodo) tasks with
  | some i => some i
  | none => firstIdxWith (fun t => t.status == statusFailed && decide (t.attempts < K)) tasks

theorem firstIdxWith_eq_some_iff {α : Type} [Inhabited α] (p : α → Bool) :
    ∀ (l : List α) (i : Nat),
      firstIdxWith p l = some i ↔
        i < l.length ∧ p (l.getD i default) = true ∧
          ∀ j, j < i → p (l.getD j default) = false := by
  intro l
  induction l with
  | nil => intro i; simp [firstIdxWith]
  | cons a as ih =>
    intro i
    by_cases hpa : p a = true
    · have hunfold : firstIdxWith p (a :: as) = some 0 := by simp [firstIdxWith, hpa]
      rw [hunfold]
      constructor
      · rintro h
        have : i = 0 := by simpa using h.symm
        subst this
        refine ⟨by simp, by simpa using hpa, by omega⟩
      · rintro ⟨hlen, hget, hlt⟩
        rcases Nat.eq_zero_or_pos i with hi | hi
        · subst hi; rfl
        · exact absurd (by simpa using hlt 0 hi) (by simp [hpa])
    · have hpa' : p a = false := by
        cases h : p a with
        | true => exact absurd h hpa
        | false => rfl
      have hunfold : firstIdxWith p (a :: as) = (firstIdxWith p as).map (· + 1) := by
        simp [firstIdxWith, hpa']
      rw [hunfold]
      constructor
      · rintro h
        rcases Option.map_eq_some'.mp h with ⟨i', hi', rfl⟩
        rcases (ih i').mp hi' with ⟨hlen, hget, hlt⟩
        refine ⟨by simpa using Nat.succ_lt_succ hlen, by simpa using hget, ?_⟩
        intro j hj
        cases j with
        | zero => simpa using hpa'
        | succ j' => simpa using hlt j' (Nat.lt_of_succ_lt_succ hj)
      · rintro ⟨hlen, hget, hlt⟩
        cases i with
        | zero => exact absurd (by simpa using hget) (by simp [hpa'])
        | succ i' =>
          have : firstIdxWith p as = some i' := by
            refine (ih i').mpr ⟨Nat.lt_of_succ_lt_succ (by simpa using hlen), by simpa using hget, ?_⟩
            intro j hj
            simpa using hlt (j + 1) (Nat.succ_lt_succ hj)
          simp [this]

theorem firstIdxWith_eq_none_iff {α : Type} (p : α → Bool) :
    ∀ l : List α, firstIdxWith p l = none ↔ ∀ x ∈ l, p x = false := by
  intro l
  induction l with
  | nil => simp [firstIdxWith]
  | cons a as ih =>
    by_cases hpa : p a = true
    · simp [firstIdxWith, hpa]
    · have hpa' : p a = false := by
        cases h : p a with
        | true => exact absurd h hpa
        | false => rfl
      simp [firstIdxWith, hpa', ih]

/-- Embedding of Go `strings.ToLower` (character-wise lowercasing). -/
def goToLower (s : String) : String := String.mk (s.data.map Char.toLower)

/-- Embedding of Go `strings.TrimSpace`: drop whitespace from both ends. -/
def goTrim (s : String) : String :=
  String.mk (((s.data.dropWhile Char.isWhitespace).reverse.dropWhile Char.isWhitespace).reverse)

/-- Embedding of Go `strings.Contains`: `sub` occurs as a substring of `s`. -/
def goContains (s sub : String) : Bool := decide (sub.data <:+: s.data)

/-- Embedding of Go `strings.HasPrefix`: `pre` is an initial segment of `s`. -/
def goStarts (s pre : String) : Bool := decide (pre.data <+: s.data)

/-- The `containsAny` closure inside `classifyProviderFailure`. -/
def containsAny (msg : String) (keys : List String) : Bool :=
  keys.any (fun k => goContains msg k)

/-- Keyword family for the `rate_limit` tag. -/
def rateLimitKeys : List String := ["rate limit", "rate-limited", "too many requests", "429"]

/-- Keyword family for the `quota` tag. -/
def quotaKeys : List String := ["usage limit", "quota", "daily limit", "weekly limit", "monthly limit"]

/-- Keyword family for the `billing` tag. -/
def billingKeys : List String := ["billing", "payment", "insufficient credits"]

/-- Keyword family for the `model_unavailable` tag. -/
def modelUnavailableKeys : List String := ["model", "not exist", "not have access", "unknown model"]

/-- Keyword family for the `provider_unavailable` tag. -/
def providerUnavailableKeys : List String :=
  ["temporarily unavailable", "service unavailable", "overloaded"]

/-- Keyword family for the `auth` tag. -/
def authKeys : List String := ["auth", "unauthorized", "forbidden", "login required"]

/-- Embedding of `classifyProviderFailure`. A nil Go error is `none`; the
switch inspects the lowercased error text and output (joined by a newline,
as in `err.Error() + "\n" + output`) and returns the first matching tag. -/
def classifyProviderFailure (err : Option String) (output : String) : String :=
  match err with
  | none => ""
  | some e =>
    let msg := goToLower (e ++ "\n" ++ output)
    if containsAny msg rateLimitKeys then "rate_limit"
    else if containsAny msg quotaKeys then "quota"
    else if containsAny msg billingKeys then "billing"
    else if containsAny msg modelUnavailableKeys then "model_unavailable"
    else if containsAny msg providerUnavailableKeys then "provider_unavailable"
    else if containsAny msg authKeys then "auth"
    else ""

/-- Embedding of `normalizeClaudeModel`: lowercase, trim, and drop a leading
`claude-` (7 characters) when present. -/
def normalizeClaudeModel (m : String) : String :=
  let m2 := goToLower (goTrim m)
  if goStarts m2 "claude-" then String.mk (m2.data.drop 7) else m2

/-- Characters after the first `:` of the list, if any: the observable part
of Go `strings.SplitN(h, ":", 2)` used by `routeModel` (`parts[1]` when the
split yields two parts). -/
def afterFirstColon : List Char → Option (List Char)
  | [] => none
  | c :: cs => if c = ':' then some cs else afterFirstColon cs

/-- Embedding of `routeModel`: map a free-form model hint to a
`(provider, model)` pair. -/
def routeModel (hint : String) : String × String :=
  let h := goToLower (goTrim hint)
  if h = "" then ("codex", "")
  else if goContains h "opus" then ("claude", "opus")
  else if goContains h "sonnet" then ("claude", "sonnet")
  else if goContains h "haiku" then ("claude", "haiku")
  else if goStarts h "claude" then
    match afterFirstColon h.data with
    | some rest => ("claude", normalizeClaudeModel (String.mk rest))
    | none => ("claude", normalizeClaudeModel h)
  else if goStarts h "codex" || goStarts h "gpt" || goStarts h "o" then
    if h = "codex" then ("codex", "") else ("codex", h)
  else ("codex", "")

/-- Embedding of `selectFallback`: `codex` falls back to `(claude, sonnet)`
(cost guardrail: never opus), `claude` variants fall back to `(codex, "")`,
anything else has no fallback. The `model` argument is unused, as in the
source. -/
def selectFallback (provider _model : String) : Option (String × String) :=
  if provider = "codex" then some ("claude", "sonnet")
  else if provider = "claude" then some ("codex", "")
  else none

/-- Result of `runAgentWithFallback`. The `calls` field instruments the
source's `runAgent` call sites: each invocation of the agent subprocess is
recorded as its `(provider, model)` pair, in order. -/
structure AgentRunResult where
  provider : String
  model : String
  output : String
  err : Option String
  fb : Option FallbackAttempt
  calls : List (String × String)
deriving Repr, DecidableEq, Inhabited

/-- Embedding of `runAgentWithFallback`. The agent subprocess is an oracle
`agent : provider → model → (captured output, error)`. -/
def runAgentWithFallback (agent : String → String → String × Option String)
    (primaryProvider primaryModel : String) : AgentRunResult :=
  let r1 := agent primaryProvider primaryModel
  match r1.2 with
  | none => ⟨primaryProvider, primaryModel, r1.1, none, none, [(primaryProvider, primaryModel)]⟩
  | some e1 =>
    let reason := classifyProviderFailure (some e1) r1.1
    if reason = "" then
      ⟨primaryProvider, primaryModel, r1.1, some e1, none, [(primaryProvider, primaryModel)]⟩
    else
      match selectFallback primaryProvider primaryModel with
      | none => ⟨primaryProvider, primaryModel, r1.1, some e1, none,
          [(primaryProvider, primaryModel)]⟩
      | some (fp, fm) =>
        let r2 := agent fp fm
        let combined := goTrim (r1.1 ++ "\n\n[obliviate fallback]\n" ++ r2.1)
        let details : FallbackAttempt := ⟨primaryProvider, primaryModel, fp, fm, reason⟩
        match r2.2 with
        | none => ⟨fp, fm, combined, none, some details,
            [(primaryProvider, primaryModel), (fp, fm)]⟩
        | some e2 =>
          ⟨fp, fm, combined,
            some ("primary failed (" ++ reason ++ "): " ++ e1 ++ "; fallback failed: " ++ e2),
            some details, [(primaryProvider, primaryModel), (fp, fm)]⟩

/-- Embedding of `tail`: the last `n` runes of `s` (runes are `Char`s of
`s.data`). -/
def tail (s : String) (n : Nat) : String :=
  if s.data.length ≤ n then s else String.mk (s.data.drop (s.data.length - n))

/-- The verify phase of `cmdGo` (the `for _, v := range t.Verify` loop):
run each command in order through the verify oracle; on the first failing
command return it together with `out + "\n" + verifyErr.Error()`. -/
def runVerifies (verify : String → String × Option String) : List String → Option (String × String)
  | [] => none
  | v :: vs =>
    match verify v with
    | (out, some e) => some (v, out ++ "\n" ++ e)
    | (_, none) => runVerifies verify vs

/-- Oracles for the external effects consumed by one `cmdGo` iteration:
the agent subprocess, the verify shell, the two `gitHead` probes
(`Except.error` is a failed probe carrying the error text), and the clock
(all `nowUTC()` calls of the iteration observe this one value). -/
structure AgentEnv where
  agent : String → String → String × Option String
  verify : String → String × Option String
  headPre : Except String String
  headPost : Except String String
  now : String

/-- State-store writes performed by the loop, in program order: an atomic
`saveTasks` rewrite, a `runs.jsonl` append, or a `learnings.md` append. -/
inductive StoreEvent where
  | saveTasks (tasks : List Task)
  | appendRun (run : RunLog)
  | appendLearn (line : String)
deriving Repr, DecidableEq

/-- Outcome of one non-dry-run `cmdGo` iteration: the updated task list,
the run record appended to runs.jsonl, the store writes in program order,
and the iteration's `execErr` (the task-level execution error, if any). -/
structure IterOutcome where
  tasks : List Task
  run : RunLog
  events : List StoreEvent
  execErr : Option String
deriving Repr

/-- Stage of one `cmdGo` iteration: the agent invocation with fallback on
the routed primary pair (`main.go` lines 706, 718). -/
def iterAgent (env : AgentEnv) (t : Task) : AgentRunResult :=
  runAgentWithFallback env.agent (routeModel t.modelHint).1 (routeModel t.modelHint).2

/-- Stage: the run record as first assembled, including the fallback triple
when a fallback was attempted (`main.go` lines 719-733). -/
def iterRun1 (env : AgentEnv) (t : Task) : RunLog :=
  let run0 : RunLog :=
    { taskId := t.id, status := "", provider := (iterAgent env t).provider,
      model := (iterAgent env t).model,
      primaryProvider := (routeModel t.modelHint).1,
      primaryModel := (routeModel t.modelHint).2,
      fallbackProvider := "", fallbackModel := "", fallbackReason := "",
      startedAt := env.now, finishedAt := env.now, error := "",
      outputTail := tail (iterAgent env t).output 1000, verifyFailed := "" }
  match (iterAgent env t).fb with
  | none => run0
  | some fb =>
    { run0 with fallbackProvider := fb.fallbackProvider,
                fallbackModel := fb.fallbackModel, fallbackReason := fb.reason }

/-- Stage: the verify phase, yielding the execution error so far and the
run record updated with the first failing command (`main.go` lines 735-751). -/
def iterStep2 (env : AgentEnv) (t : Task) : Option String × RunLog :=
  match (iterAgent env t).err with
  | some e => (some e, iterRun1 env t)
  | none =>
    match runVerifies env.verify t.verify with
    | some (cmd, failedOutput) =>
      (some ("verify failed: " ++ cmd),
       { iterRun1 env t with
           verifyFailed := cmd,
           outputTail := tail ((iterRun1 env t).outputTail ++ "\n" ++ failedOutput) 1000 })
    | none => (none, iterRun1 env t)

/-- Stage: the commit gate, producing the iteration's final execution error
(`main.go` lines 753-764). -/
def iterExecErr (env : AgentEnv) (requireCommit : Bool) (t : Task) : Option String :=
  match (iterStep2 env t).1 with
  | some e => some e
  | none =>
    if requireCommit then
      match env.headPre with
      | .error e => some ("require-commit: resolve pre-task git head: " ++ e)
      | .ok headBefore =>
        match env.headPost with
        | .error e => some ("require-commit: resolve post-task git head: " ++ e)
        | .ok headAfter =>
          if headAfter = headBefore then
            some "require-commit enabled: no new commit created"
          else none
    else none

/-- Embedding of the body of `cmdGo`'s loop for a selected index `idx`
(the non-dry-run path, `main.go` lines 699-802): persist `in_progress`,
run the staged pipeline, update the task terminally, and record the writes
in program order. `K` is the attempts cap (the source's constant
`maxAttempts = 2`). -/
def goIteration (env : AgentEnv) (K : Int) (requireCommit : Bool)
    (tasks : List Task) (idx : Nat) : IterOutcome :=
  let t := tasks.getD idx default
  let tasks1 := tasks.set idx { t with status := statusInProgress, updatedAt := env.now }
  match iterExecErr env requireCommit t with
  | some e =>
    let newStatus := if t.attempts + 1 ≥ K then statusBlocked else statusFailed
    let t2 := { t with attempts := t.attempts + 1, lastError := e,
                       updatedAt := env.now, status := newStatus }
    let tasks2 := tasks.set idx t2
    let run2 := { (iterStep2 env t).2 with status := newStatus, error := e }
    ⟨tasks2, run2, [.saveTasks tasks1, .appendRun run2, .saveTasks tasks2], some e⟩
  | none =>
    let t2 := { t with status := statusDone, updatedAt := env.now, lastError := "" }
    let tasks2 := tasks.set idx t2
    let run2 := { (iterStep2 env t).2 with status := statusDone }
    let learnLine := "- [" ++ env.now ++ "] " ++ t.id ++ " completed (" ++ t.title ++ ")\n"
    ⟨tasks2, run2, [.saveTasks tasks1, .appendLearn learnLine, .appendRun run2,
      .saveTasks tasks2], none⟩

/-- Running counters and trace of a `cmdGo` invocation's main phase. -/
structure GoState where
  tasks : List Task
  processed : Nat
  doneCount : Nat
  failedCount : Nat
  blockedCount : Nat
  taskIds : List String
  events : List StoreEvent
deriving Repr

/-- Embedding of `cmdGo`'s main phase (the `for` loop after `loadTasks`,
`main.go` lines 674-803): between loading the queue and the first
`nextRunnableTaskIndex` call the source performs no task repair, so the
loop starts directly from the loaded `tasks`. The loop is fuel-indexed
(the source's `for` terminates only by `limit`/no-runnable-task). -/
def goLoop (env : AgentEnv) (K : Int) (requireCommit dryRun : Bool) (limit : Nat) :
    Nat → GoState → GoState
  | 0, st => st
  | fuel + 1, st =>
    if limit > 0 ∧ st.processed ≥ limit then st
    else
      match nextRunnableTaskIndex K st.tasks with
      | none => st
      | some idx =>
        let t := st.tasks.getD idx default
        if dryRun then
          goLoop env K requireCommit dryRun limit fuel
            { st with tasks := st.tasks.set idx { t with status := statusDone },
                      processed := st.processed + 1,
                      taskIds := st.taskIds ++ [t.id] }
        else
          let r := goIteration env K requireCommit st.tasks idx
          goLoop env K requireCommit dryRun limit fuel
            { tasks := r.tasks,
              processed := st.processed + 1,
              doneCount := st.doneCount + (if r.run.status = statusDone then 1 else 0),
              failedCount := st.failedCount + (if r.run.status = statusFailed then 1 else 0),
              blockedCount := st.blockedCount + (if r.run.status = statusBlocked then 1 else 0),
              taskIds := st.taskIds ++ [t.id],
              events := st.events ++ r.events }

/-- The task update performed by `cmdReset` on the found task
(`main.go` lines 502-505). -/
def resetTask (now : String) (t : Task) : Task :=
  { t with status := statusTodo, attempts := 0, lastError := "", updatedAt := now }

/-- Embedding of the state mutation of `cmdReset`: find the task by id
(`none` is the command's task-not-found error) and persist the queue with
that task reset. -/
def cmdResetTasks (now taskID : String) (tasks : List Task) : Option (List Task) :=
  match findTaskIndex tasks taskID with
  | none => none
  | some i => some (tasks.set i (resetTask now (tasks.getD i default)))

/-- The task list with each task's informational `priority` field rewritten
by position (used to state that `priority` never affects selection). -/
def withPriorities (f : Nat → String) (tasks : List Task) : List Task :=
  tasks.mapIdx (fun i t => { t with priority := f i })

theorem firstIdxWith_mapIdx {α β : Type} (p : β → Bool) (q : α → Bool) :
    ∀ (g : Nat → α → β) (l : List α), (∀ n a, p (g n a) = q a) →
      firstIdxWith p (l.mapIdx g) = firstIdxWith q l := by
  intro g l
  induction l generalizing g with
  | nil => intro _; simp [firstIdxWith]
  | cons a as ih =>
    intro hpq
    rw [List.mapIdx_cons]
    show (if p (g 0 a) then some 0 else (firstIdxWith p (as.mapIdx fun i => g (i + 1))).map (· + 1))
        = firstIdxWith q (a :: as)
    rw [hpq 0 a, ih (fun i => g (i + 1)) (fun n b => hpq (n + 1) b)]
    rfl

theorem getD_mem {α : Type} [Inhabited α] :
    ∀ (l : List α) (i : Nat), i < l.length → l.getD i default ∈ l := by
  intro l
  induction l with
  | nil => intro i h; simp at h
  | cons a as ih =>
    intro i h
    cases i with
    | zero => simp
    | succ i' => exact List.mem_cons_of_mem a (ih i' (Nat.lt_of_succ_lt_succ (by simpa using h)))

/-- Spec-side predicate (§4.3, P3): `i` is the lowest index of a `todo`
task in the list. -/
def SpecLowestTodo (tasks : List Task) (i : Nat) : Prop :=
  i < tasks.length ∧ (tasks.getD i default).status = statusTodo ∧
    ∀ j, j < i → (tasks.getD j default).status ≠ statusTodo

/-- Spec-side predicate (§4.3, P3): `i` is the lowest index of a `failed`
task with `attempts < K`. -/
def SpecLowestRetry (K : Int) (tasks : List Task) (i : Nat) : Prop :=
  i < tasks.length ∧ (tasks.getD i default).status = statusFailed ∧
    (tasks.getD i default).attempts < K ∧
    ∀ j, j < i → ¬((tasks.getD j default).status = statusFailed ∧
      (tasks.getD j default).attempts < K)

/-- C4: next-runnable selection returns the lowest index whose status is
`todo`; if no such task exists, the lowest index whose status is `failed`
with `attempts < K`; otherwise none. The scan is in list order, and
rewriting every task's `priority` field never changes which index is
chosen. -/
theorem nextRunnableTaskIndex_claim (K : Int) (tasks : List Task) :
    (∀ i, nextRunnableTaskIndex K tasks = some i →
      SpecLowestTodo tasks i ∨
        ((∀ t ∈ tasks, t.status ≠ statusTodo) ∧ SpecLowestRetry K tasks i)) ∧
    (nextRunnableTaskIndex K tasks = none ↔
      ∀ t ∈ tasks, t.status ≠ statusTodo ∧
        ¬(t.status = statusFailed ∧ t.attempts < K)) ∧
    (∀ f : Nat → String,
      nextRunnableTaskIndex K (withPriorities f tasks) = nextRunnableTaskIndex K tasks) := by
  have hTodo : ∀ (t : Task), ((t.status == statusTodo) = true) ↔ t.status = statusTodo := by
    intro t; simp
  have hTodoF : ∀ (t : Task), ((t.status == statusTodo) = false) ↔ t.status ≠ statusTodo := by
    intro t; simp
  have hFail : ∀ (t : Task),
      ((t.status == statusFailed && decide (t.attempts < K)) = true) ↔
        (t.status = statusFailed ∧ t.attempts < K) := by
    intro t; simp
  have hFailF : ∀ (t : Task),
      ((t.status == statusFailed && decide (t.attempts < K)) = false) ↔
        ¬(t.status = statusFailed ∧ t.attempts < K) := by
    intro t
    rw [← Bool.not_eq_true, not_iff_not]
    exact hFail t
  refine ⟨?_, ?_, ?_⟩
  · intro i hi
    unfold nextRunnableTaskIndex at hi
    cases htd : firstIdxWith (fun t => t.status == statusTodo) tasks with
    | some i0 =>
      rw [htd] at hi
      have : i0 = i := by simpa using hi
      subst this
      rcases (firstIdxWith_eq_some_iff _ tasks i0).mp htd with ⟨hlen, hget, hlt⟩
      exact Or.inl ⟨hlen, (hTodo _).mp hget, fun j hj => (hTodoF _).mp (hlt j hj)⟩
    | none =>
      rw [htd] at hi
      have hAllTodo : ∀ t ∈ tasks, t.status ≠ statusTodo := by
        intro t ht
        exact (hTodoF t).mp (((firstIdxWith_eq_none_iff _ tasks).mp htd) t ht)
      rcases (firstIdxWith_eq_some_iff _ tasks i).mp hi with ⟨hlen, hget, hlt⟩
      have hg := (hFail _).mp hget
      exact Or.inr ⟨hAllTodo, hlen, hg.1, hg.2, fun j hj => (hFailF _).mp (hlt j hj)⟩
  · unfold nextRunnableTaskIndex
    cases htd : firstIdxWith (fun t => t.status == statusTodo) tasks with
    | some i0 =>
      simp only []
      constructor
      · intro h; exact absurd h (by simp)
      · intro h
        rcases (firstIdxWith_eq_some_iff _ tasks i0).mp htd with ⟨hlen, hget, _⟩
        have hmem : tasks.getD i0 default ∈ tasks := getD_mem tasks i0 hlen
        exact absurd ((hTodo _).mp hget) ((h _ hmem).1)
    | none =>
      have hAllTodo := (firstIdxWith_eq_none_iff
        (fun t => t.status == statusTodo) tasks).mp htd
      simp only []
      rw [firstIdxWith_eq_none_iff]
      constructor
      · intro h t ht
        exact ⟨(hTodoF t).mp (hAllTodo t ht), (hFailF t).mp (h t ht)⟩
      · intro h t ht
        exact (hFailF t).mpr (h t ht).2
  · intro f
    unfold nextRunnableTaskIndex withPriorities
    have h1 := firstIdxWith_mapIdx (fun t : Task => t.status == statusTodo)
      (fun t : Task => t.status == statusTodo)
      (fun i t => { t with priority := f i }) tasks (fun _ _ => rfl)
    have h2 := firstIdxWith_mapIdx
      (fun t : Task => t.status == statusFailed && decide (t.attempts < K))
      (fun t : Task => t.status == statusFailed && decide (t.attempts < K))
      (fun i t => { t with priority := f i }) tasks (fun _ _ => rfl)
    rw [h1, h2]

/-- Sample task used by concrete witnesses. -/
def sampleTask (id status : String) (attempts : Int) : Task :=
  { id := id, title := "t", spec := "s", verify := ["echo ok"], status := status,
    modelHint := "codex", priority := "med", attempts := attempts, lastError := "",
    source := "agent", createdAt := "c", updatedAt := "u" }

/-- Witness for C4: on a concrete queue whose first task is `done` and whose
second is `todo`, the selection hypothesis is discharged and index 1 is the
lowest `todo`. -/
theorem nextRunnableTaskIndex_claim_witness :
    SpecLowestTodo [sampleTask "OB-001" "done" 0, sampleTask "OB-002" "todo" 0] 1 ∨
      ((∀ t ∈ [sampleTask "OB-001" "done" 0, sampleTask "OB-002" "todo" 0],
          t.status ≠ statusTodo) ∧
        SpecLowestRetry 2 [sampleTask "OB-001" "done" 0, sampleTask "OB-002" "todo" 0] 1) :=
  (nextRunnableTaskIndex_claim 2
    [sampleTask "OB-001" "done" 0, sampleTask "OB-002" "todo" 0]).1 1 (by decide)

/-- Spec-side predicate (§4.6): some keyword of the family occurs as a
substring of the message. -/
def FamilyMatches (msg : String) (keys : List String) : Prop :=
  ∃ k ∈ keys, k.data <:+: msg.data

instance (msg : String) (keys : List String) : Decidable (FamilyMatches msg keys) := by
  unfold FamilyMatches
  infer_instance

theorem containsAny_iff (msg : String) (keys : List String) :
    containsAny msg keys = true ↔ FamilyMatches msg keys := by
  simp [containsAny, goContains, FamilyMatches, List.any_eq_true]

theorem containsAny_eq_false_iff (msg : String) (keys : List String) :
    containsAny msg keys = false ↔ ¬FamilyMatches msg keys := by
  rw [← containsAny_iff]
  cases containsAny msg keys <;> simp

/-- C6: on a non-nil error, `classifyProviderFailure` inspects the
lowercased concatenation of the error text and the output and returns the
first matching tag in the fixed order rate_limit, quota, billing,
model_unavailable, provider_unavailable, auth, where a tag matches when any
keyword of its family occurs as a substring; when no family matches it
returns the empty tag. -/
theorem classifyProviderFailure_claim (e output : String) :
    (FamilyMatches (goToLower (e ++ "\n" ++ output)) rateLimitKeys →
      classifyProviderFailure (some e) output = "rate_limit") ∧
    (¬FamilyMatches (goToLower (e ++ "\n" ++ output)) rateLimitKeys →
      FamilyMatches (goToLower (e ++ "\n" ++ output)) quotaKeys →
      classifyProviderFailure (some e) output = "quota") ∧
    (¬FamilyMatches (goToLower (e ++ "\n" ++ output)) rateLimitKeys →
      ¬FamilyMatches (goToLower (e ++ "\n" ++ output)) quotaKeys →
      FamilyMatches (goToLower (e ++ "\n" ++ output)) billingKeys →
      classifyProviderFailure (some e) output = "billing") ∧
    (¬FamilyMatches (goToLower (e ++ "\n" ++ output)) rateLimitKeys →
      ¬FamilyMatches (goToLower (e ++ "\n" ++ output)) quotaKeys →
      ¬FamilyMatches (goToLower (e ++ "\n" ++ output)) billingKeys →
      FamilyMatches (goToLower (e ++ "\n" ++ output)) modelUnavailableKeys →
      classifyProviderFailure (some e) output = "model_unavailable") ∧
    (¬FamilyMatches (goToLower (e ++ "\n" ++ output)) rateLimitKeys →
      ¬FamilyMatches (goToLower (e ++ "\n" ++ output)) quotaKeys →
      ¬FamilyMatches (goToLower (e ++ "\n" ++ output)) billingKeys →
      ¬FamilyMatches (goToLower (e ++ "\n" ++ output)) modelUnavailableKeys →
      FamilyMatches (goToLower (e ++ "\n" ++ output)) providerUnavailableKeys →
      classifyProviderFailure (some e) output = "provider_unavailable") ∧
    (¬FamilyMatches (goToLower (e ++ "\n" ++ output)) rateLimitKeys →
      ¬FamilyMatches (goToLower (e ++ "\n" ++ output)) quotaKeys →
      ¬FamilyMatches (goToLower (e ++ "\n" ++ output)) billingKeys →
      ¬FamilyMatches (goToLower (e ++ "\n" ++ output)) modelUnavailableKeys →
      ¬FamilyMatches (goToLower (e ++ "\n" ++ output)) providerUnavailableKeys →
      FamilyMatches (goToLower (e ++ "\n" ++ output)) authKeys →
      classifyProviderFailure (some e) output = "auth") ∧
    (¬FamilyMatches (goToLower (e ++ "\n" ++ output)) rateLimitKeys →
      ¬FamilyMatches (goToLower (e ++ "\n" ++ output)) quotaKeys →
      ¬FamilyMatches (goToLower (e ++ "\n" ++ output)) billingKeys →
      ¬FamilyMatches (goToLower (e ++ "\n" ++ output)) modelUnavailableKeys →
      ¬FamilyMatches (goToLower (e ++ "\n" ++ output)) providerUnavailableKeys →
      ¬FamilyMatches (goToLower (e ++ "\n" ++ output)) authKeys →
      classifyProviderFailure (some e) output = "") := by
  refine ⟨?_, ?_, ?_, ?_, ?_, ?_, ?_⟩
  · intro h1
    simp [classifyProviderFailure, (containsAny_iff _ _).mpr h1]
  · intro h1 h2
    simp [classifyProviderFailure, (containsAny_eq_false_iff _ _).mpr h1,
      (containsAny_iff _ _).mpr h2]
  · intro h1 h2 h3
    simp [classifyProviderFailure, (containsAny_eq_false_iff _ _).mpr h1,
      (containsAny_eq_false_iff _ _).mpr h2, (containsAny_iff _ _).mpr h3]
  · intro h1 h2 h3 h4
    simp [classifyProviderFailure, (containsAny_eq_false_iff _ _).mpr h1,
      (containsAny_eq_false_iff _ _).mpr h2, (containsAny_eq_false_iff _ _).mpr h3,
      (containsAny_iff _ _).mpr h4]
  · intro h1 h2 h3 h4 h5
    simp [classifyProviderFailure, (containsAny_eq_false_iff _ _).mpr h1,
      (containsAny_eq_false_iff _ _).mpr h2, (containsAny_eq_false_iff _ _).mpr h3,
      (containsAny_eq_false_iff _ _).mpr h4, (containsAny_iff _ _).mpr h5]
  · intro h1 h2 h3 h4 h5 h6
    simp [classifyProviderFailure, (containsAny_eq_false_iff _ _).mpr h1,
      (containsAny_eq_false_iff _ _).mpr h2, (containsAny_eq_false_iff _ _).mpr h3,
      (containsAny_eq_false_iff _ _).mpr h4, (containsAny_eq_false_iff _ _).mpr h5,
      (containsAny_iff _ _).mpr h6]
  · intro h1 h2 h3 h4 h5 h6
    simp [classifyProviderFailure, (containsAny_eq_false_iff _ _).mpr h1,
      (containsAny_eq_false_iff _ _).mpr h2, (containsAny_eq_false_iff _ _).mpr h3,
      (containsAny_eq_false_iff _ _).mpr h4, (containsAny_eq_false_iff _ _).mpr h5,
      (containsAny_eq_false_iff _ _).mpr h6]

/-- Witness for C6: a concrete `429` message matches the rate-limit family
and classifies as `rate_limit`. -/
theorem classifyProviderFailure_claim_witness :
    classifyProviderFailure (some "429 Too Many Requests") "" = "rate_limit" :=
  (classifyProviderFailure_claim "429 Too Many Requests" "").1 (by decide)

/-- C10: the failure classifier returns the empty tag whenever the agent
error is nil, regardless of the output's content; consequently a successful
primary run — even one whose output contains provider-failure keywords — is
returned as a success with no fallback invocation (exactly one agent call). -/
theorem classifyNilError_claim :
    (∀ output : String, classifyProviderFailure none output = "") ∧
    (∀ (agent : String → String → String × Option String) (pp pm out : String),
      agent pp pm = (out, none) →
      runAgentWithFallback agent pp pm = ⟨pp, pm, out, none, none, [(pp, pm)]⟩) := by
  constructor
  · intro output; rfl
  · intro agent pp pm out h
    simp [runAgentWithFallback, h]

/-- Witness for C10: a successful run whose output contains `quota`, `429`
and `unauthorized` is still a success with a single agent call and no
fallback. -/
theorem classifyNilError_claim_witness :
    runAgentWithFallback (fun _ _ => ("quota 429 unauthorized", none)) "codex" "" =
      ⟨"codex", "", "quota 429 unauthorized", none, none, [("codex", "")]⟩ :=
  classifyNilError_claim.2 (fun _ _ => ("quota 429 unauthorized", none)) "codex" ""
    "quota 429 unauthorized" rfl

theorem runAgentWithFallback_cases (agent : String → String → String × Option String)
    (pp pm : String) :
    ((runAgentWithFallback agent pp pm).fb = none ∧
      (runAgentWithFallback agent pp pm).calls = [(pp, pm)]) ∨
    (∃ fp fm e1, selectFallback pp pm = some (fp, fm) ∧
      (agent pp pm).2 = some e1 ∧
      (runAgentWithFallback agent pp pm).fb =
        some ⟨pp, pm, fp, fm, classifyProviderFailure (some e1) (agent pp pm).1⟩ ∧
      (runAgentWithFallback agent pp pm).calls = [(pp, pm), (fp, fm)] ∧
      (runAgentWithFallback agent pp pm).provider = fp ∧
      (runAgentWithFallback agent pp pm).model = fm ∧
      (runAgentWithFallback agent pp pm).output =
        goTrim ((agent pp pm).1 ++ "\n\n[obliviate fallback]\n" ++ (agent fp fm).1)) := by
  rcases h1 : agent pp pm with ⟨out1, e1?⟩
  cases e1? with
  | none => left; simp [runAgentWithFallback, h1]
  | some e1 =>
    by_cases hr : classifyProviderFailure (some e1) out1 = ""
    · left; simp [runAgentWithFallback, h1, hr]
    · rcases h2 : selectFallback pp pm with _ | ⟨fp, fm⟩
      · left; simp [runAgentWithFallback, h1, hr, h2]
      · right
        refine ⟨fp, fm, e1, by simp [h2], by simp [h1], ?_⟩
        rcases h3 : agent fp fm with ⟨out2, e2?⟩
        cases e2? with
        | none => simp [runAgentWithFallback, h1, hr, h2, h3]
        | some e2 => simp [runAgentWithFallback, h1, hr, h2, h3]

/-- C8: fallback selection maps `codex` to `(claude, sonnet)` — never opus —
and `claude` to `(codex, "")`; any other provider gets no fallback. Within
one execution the agent is invoked once, or once plus a single fallback
invocation; whenever a fallback was attempted the effective provider and
model are the fallback's, and the output is the primary output joined to
the fallback output by the fallback marker line. -/
theorem selectFallback_claim :
    (∀ model, selectFallback "codex" model = some ("claude", "sonnet")) ∧
    (∀ model, selectFallback "claude" model = some ("codex", "")) ∧
    (∀ provider model, provider ≠ "codex" → provider ≠ "claude" →
      selectFallback provider model = none) ∧
    (∀ provider model fp fm, selectFallback provider model = some (fp, fm) → fm ≠ "opus") ∧
    (∀ (agent : String → String → String × Option String) (pp pm : String),
      (runAgentWithFallback agent pp pm).calls = [(pp, pm)] ∨
        ∃ fp fm, selectFallback pp pm = some (fp, fm) ∧
          (runAgentWithFallback agent pp pm).calls = [(pp, pm), (fp, fm)]) ∧
    (∀ (agent : String → String → String × Option String) (pp pm : String)
        (fbv : FallbackAttempt),
      (runAgentWithFallback agent pp pm).fb = some fbv →
      (runAgentWithFallback agent pp pm).provider = fbv.fallbackProvider ∧
      (runAgentWithFallback agent pp pm).model = fbv.fallbackModel ∧
      (runAgentWithFallback agent pp pm).output =
        goTrim ((agent pp pm).1 ++ "\n\n[obliviate fallback]\n"
          ++ (agent fbv.fallbackProvider fbv.fallbackModel).1)) := by
  refine ⟨fun model => rfl, fun model => rfl, ?_, ?_, ?_, ?_⟩
  · intro p m h1 h2
    simp [selectFallback, h1, h2]
  · intro p m fp fm h
    by_cases h1 : p = "codex"
    · subst h1
      rw [show selectFallback "codex" m = some ("claude", "sonnet") from rfl] at h
      have hpair : ("claude", "sonnet") = (fp, fm) := Option.some.inj h
      have hfm : "sonnet" = fm := congrArg Prod.snd hpair
      rw [← hfm]
      decide
    · by_cases h2 : p = "claude"
      · subst h2
        rw [show selectFallback "claude" m = some ("codex", "") from rfl] at h
        have hpair : ("codex", "") = (fp, fm) := Option.some.inj h
        have hfm : "" = fm := congrArg Prod.snd hpair
        rw [← hfm]
        decide
      · simp [selectFallback, h1, h2] at h
  · intro agent pp pm
    rcases runAgentWithFallback_cases agent pp pm with ⟨_, hc⟩ | ⟨fp, fm, e1, hsel, _, _, hc, _⟩
    · exact Or.inl hc
    · exact Or.inr ⟨fp, fm, hsel, hc⟩
  · intro agent pp pm fbv hfb
    rcases runAgentWithFallback_cases agent pp pm with ⟨hnone, _⟩ | ⟨fp, fm, e1, _, _, hsome, _, hp, hm, hout⟩
    · rw [hfb] at hnone; exact absurd hnone (by simp)
    · rw [hfb] at hsome
      have hfbv := Option.some.inj hsome
      subst hfbv
      exact ⟨hp, hm, hout⟩

/-- Witness for C8: a concrete `codex` primary failing with `unauthorized`
falls back to `(claude, sonnet)`; the effective provider and model are the
fallback's and the output is the marker-joined pair. -/
theorem selectFallback_claim_witness :
    (runAgentWithFallback
        (fun p _ => if p = "codex" then ("p-out", some "unauthorized") else ("f-out", none))
        "codex" "").provider = "claude" ∧
    (runAgentWithFallback
        (fun p _ => if p = "codex" then ("p-out", some "unauthorized") else ("f-out", none))
        "codex" "").model = "sonnet" ∧
    (runAgentWithFallback
        (fun p _ => if p = "codex" then ("p-out", some "unauthorized") else ("f-out", none))
        "codex" "").output = goTrim ("p-out" ++ "\n\n[obliviate fallback]\n" ++ "f-out") :=
  selectFallback_claim.2.2.2.2.2
    (fun p _ => if p = "codex" then ("p-out", some "unauthorized") else ("f-out", none))
    "codex" "" ⟨"codex", "", "claude", "sonnet", "auth"⟩ (by decide)

theorem goContains_iff (s k : String) : goContains s k = true ↔ k.data <:+: s.data := by
  simp [goContains]

theorem goContains_eq_false_iff (s k : String) :
    goContains s k = false ↔ ¬k.data <:+: s.data := by
  rw [← goContains_iff]
  cases goContains s k <;> simp

theorem goStarts_iff (s k : String) : goStarts s k = true ↔ k.data <+: s.data := by
  simp [goStarts]

theorem goStarts_eq_false_iff (s k : String) :
    goStarts s k = false ↔ ¬k.data <+: s.data := by
  rw [← goStarts_iff]
  cases goStarts s k <;> simp

theorem ne_empty_of_infix (h k : String) (hk : k.data ≠ []) (hs : k.data <:+: h.data) :
    h ≠ "" := by
  intro he
  subst he
  rcases hs with ⟨s, t, hst⟩
  have hnil : s ++ (k.data ++ t) = ([] : List Char) := by
    rw [← List.append_assoc]
    exact hst
  rcases List.append_eq_nil.mp hnil with ⟨_, h2⟩
  exact hk (List.append_eq_nil.mp h2).1

theorem ne_empty_of_pre (h k : String) (hk : k.data ≠ []) (hs : k.data <+: h.data) :
    h ≠ "" := by
  rcases hs with ⟨t, ht⟩
  exact ne_empty_of_infix h k hk ⟨[], t, by simpa using ht⟩

theorem afterFirstColon_of_split (post : List Char) :
    ∀ pre, ':' ∉ pre → afterFirstColon (pre ++ ':' :: post) = some post := by
  intro pre
  induction pre with
  | nil => intro _; simp [afterFirstColon]
  | cons c cs ih =>
    intro hnot
    have hc : ¬c = ':' := by
      intro hc
      exact hnot (by simp [hc])
    simp only [List.cons_append, afterFirstColon, if_neg hc]
    exact ih (fun hmem => hnot (List.mem_cons_of_mem c hmem))

theorem afterFirstColon_of_not_mem : ∀ l : List Char, ':' ∉ l → afterFirstColon l = none := by
  intro l
  induction l with
  | nil => intro _; rfl
  | cons c cs ih =>
    intro hnot
    have hc : ¬c = ':' := by
      intro hc
      exact hnot (by simp [hc])
    simp only [afterFirstColon, if_neg hc]
    exact ih (fun hmem => hnot (List.mem_cons_of_mem c hmem))

/-- C7: routing on the trimmed lowercased hint `h` returns `(codex, "")`
for the empty hint; `(claude, m)` for hints containing `opus`, `sonnet` or
`haiku`; for other hints starting with `claude`, provider `claude` with the
model equal to the text after the first `:` when one is present (otherwise
the whole hint), normalized; for hints starting with `codex`, `gpt` or `o`,
provider `codex` with model `""` when the hint is exactly `codex` and the
full hint otherwise; and `(codex, "")` for everything else — earlier rules
taking precedence. -/
theorem routeModel_claim (hint h : String) (hh : h = goToLower (goTrim hint)) :
    (h = "" → routeModel hint = ("codex", "")) ∧
    ("opus".data <:+: h.data → routeModel hint = ("claude", "opus")) ∧
    (¬"opus".data <:+: h.data → "sonnet".data <:+: h.data →
      routeModel hint = ("claude", "sonnet")) ∧
    (¬"opus".data <:+: h.data → ¬"sonnet".data <:+: h.data → "haiku".data <:+: h.data →
      routeModel hint = ("claude", "haiku")) ∧
    (¬"opus".data <:+: h.data → ¬"sonnet".data <:+: h.data → ¬"haiku".data <:+: h.data →
      "claude".data <+: h.data →
      (∀ pre post, h.data = pre ++ ':' :: post → ':' ∉ pre →
        routeModel hint = ("claude", normalizeClaudeModel (String.mk post))) ∧
      (':' ∉ h.data → routeModel hint = ("claude", normalizeClaudeModel h))) ∧
    (¬"opus".data <:+: h.data → ¬"sonnet".data <:+: h.data → ¬"haiku".data <:+: h.data →
      ¬"claude".data <+: h.data →
      ("codex".data <+: h.data ∨ "gpt".data <+: h.data ∨ "o".data <+: h.data) →
      (h = "codex" → routeModel hint = ("codex", "")) ∧
      (h ≠ "codex" → routeModel hint = ("codex", h))) ∧
    (h ≠ "" → ¬"opus".data <:+: h.data → ¬"sonnet".data <:+: h.data →
      ¬"haiku".data <:+: h.data → ¬"claude".data <+: h.data →
      ¬"codex".data <+: h.data → ¬"gpt".data <+: h.data → ¬"o".data <+: h.data →
      routeModel hint = ("codex", "")) := by
  have hroute : routeModel hint =
      (if h = "" then ("codex", "")
       else if goContains h "opus" then ("claude", "opus")
       else if goContains h "sonnet" then ("claude", "sonnet")
       else if goContains h "haiku" then ("claude", "haiku")
       else if goStarts h "claude" then
         match afterFirstColon h.data with
         | some rest => ("claude", normalizeClaudeModel (String.mk rest))
         | none => ("claude", normalizeClaudeModel h)
       else if goStarts h "codex" || goStarts h "gpt" || goStarts h "o" then
         if h = "codex" then ("codex", "") else ("codex", h)
       else ("codex", "")) := by
    rw [hh]
    rfl
  refine ⟨?_, ?_, ?_, ?_, ?_, ?_, ?_⟩
  · intro h0
    rw [hroute, if_pos h0]
  · intro hop
    have hne : h ≠ "" := ne_empty_of_infix h "opus" (by decide) hop
    rw [hroute, if_neg hne, if_pos ((goContains_iff h "opus").mpr hop)]
  · intro hop hso
    have hne : h ≠ "" := ne_empty_of_infix h "sonnet" (by decide) hso
    rw [hroute, if_neg hne,
      if_neg (by rw [(goContains_eq_false_iff h "opus").mpr hop]; simp),
      if_pos ((goContains_iff h "sonnet").mpr hso)]
  · intro hop hso hha
    have hne : h ≠ "" := ne_empty_of_infix h "haiku" (by decide) hha
    rw [hroute, if_neg hne,
      if_neg (by rw [(goContains_eq_false_iff h "opus").mpr hop]; simp),
      if_neg (by rw [(goContains_eq_false_iff h "sonnet").mpr hso]; simp),
      if_pos ((goContains_iff h "haiku").mpr hha)]
  · intro hop hso hha hcl
    have hne : h ≠ "" := ne_empty_of_pre h "claude" (by decide) hcl
    have hbase : routeModel hint =
        (match afterFirstColon h.data with
         | some rest => ("claude", normalizeClaudeModel (String.mk rest))
         | none => ("claude", normalizeClaudeModel h)) := by
      rw [hroute, if_neg hne,
        if_neg (by rw [(goContains_eq_false_iff h "opus").mpr hop]; simp),
        if_neg (by rw [(goContains_eq_false_iff h "sonnet").mpr hso]; simp),
        if_neg (by rw [(goContains_eq_false_iff h "haiku").mpr hha]; simp),
        if_pos ((goStarts_iff h "claude").mpr hcl)]
    constructor
    · intro pre post hsplit hpre
      rw [hbase, hsplit, afterFirstColon_of_split post pre hpre]
    · intro hnc
      rw [hbase, afterFirstColon_of_not_mem h.data hnc]
  · intro hop hso hha hcl hor
    have hne : h ≠ "" := by
      rcases hor with hx | hx | hx
      · exact ne_empty_of_pre h "codex" (by decide) hx
      · exact ne_empty_of_pre h "gpt" (by decide) hx
      · exact ne_empty_of_pre h "o" (by decide) hx
    have horb : (goStarts h "codex" || goStarts h "gpt" || goStarts h "o") = true := by
      rcases hor with hx | hx | hx
      · rw [(goStarts_iff h "codex").mpr hx]; simp
      · rw [(goStarts_iff h "gpt").mpr hx]; simp
      · rw [(goStarts_iff h "o").mpr hx]; simp
    have hbase : routeModel hint = (if h = "codex" then ("codex", "") else ("codex", h)) := by
      rw [hroute, if_neg hne,
        if_neg (by rw [(goContains_eq_false_iff h "opus").mpr hop]; simp),
        if_neg (by rw [(goContains_eq_false_iff h "sonnet").mpr hso]; simp),
        if_neg (by rw [(goContains_eq_false_iff h "haiku").mpr hha]; simp),
        if_neg (by rw [(goStarts_eq_false_iff h "claude").mpr hcl]; simp),
        if_pos horb]
    exact ⟨fun hc => by rw [hbase, if_pos hc], fun hc => by rw [hbase, if_neg hc]⟩
  · intro hne hop hso hha hcl hcx hgp ho
    rw [hroute, if_neg hne,
      if_neg (by rw [(goContains_eq_false_iff h "opus").mpr hop]; simp),
      if_neg (by rw [(goContains_eq_false_iff h "sonnet").mpr hso]; simp),
      if_neg (by rw [(goContains_eq_false_iff h "haiku").mpr hha]; simp),
      if_neg (by rw [(goStarts_eq_false_iff h "claude").mpr hcl]; simp),
      if_neg (by
        rw [(goStarts_eq_false_iff h "codex").mpr hcx,
          (goStarts_eq_false_iff h "gpt").mpr hgp,
          (goStarts_eq_false_iff h "o").mpr ho]
        simp)]

/-- Witness for C7: the hint `Claude-Opus` contains `opus` after trimming
and lowercasing, so it routes to `(claude, opus)`. -/
theorem routeModel_claim_witness : routeModel "Claude-Opus" = ("claude", "opus") :=
  (routeModel_claim "Claude-Opus" (goToLower (goTrim "Claude-Opus")) rfl).2.1
    ⟨"claude-".data, [], by decide⟩

theorem getD_set_self {α : Type} [Inhabited α] :
    ∀ (l : List α) (i : Nat) (a : α), i < l.length → (l.set i a).getD i default = a := by
  intro l
  induction l with
  | nil => intro i a h; simp at h
  | cons b bs ih =>
    intro i a h
    cases i with
    | zero => rfl
    | succ i' =>
      show (bs.set i' a).getD i' default = a
      exact ih i' a (Nat.lt_of_succ_lt_succ (by simpa using h))

theorem getD_set_ne {α : Type} [Inhabited α] :
    ∀ (l : List α) (i j : Nat) (a : α), i ≠ j →
      (l.set i a).getD j default = l.getD j default := by
  intro l
  induction l with
  | nil => intro i j a _; simp
  | cons b bs ih =>
    intro i j a hij
    cases i with
    | zero =>
      cases j with
      | zero => exact absurd rfl hij
      | succ j' => rfl
    | succ i' =>
      cases j with
      | zero => rfl
      | succ j' =>
        show (bs.set i' a).getD j' default = bs.getD j' default
        exact ih i' j' a (fun he => hij (by rw [he]))

theorem firstIdxWith_set_of_eq {α : Type} [Inhabited α] (p : α → Bool) :
    ∀ (l : List α) (i : Nat) (a : α), p a = p (l.getD i default) →
      firstIdxWith p (l.set i a) = firstIdxWith p l := by
  intro l
  induction l with
  | nil => intro i a _; simp
  | cons b bs ih =>
    intro i a hp
    cases i with
    | zero =>
      show firstIdxWith p (a :: bs) = firstIdxWith p (b :: bs)
      have : p a = p b := hp
      simp [firstIdxWith, this]
    | succ i' =>
      show firstIdxWith p (b :: bs.set i' a) = firstIdxWith p (b :: bs)
      simp [firstIdxWith, ih i' a hp]

/-- C9: for every task found by id, `reset` sets its status to `todo`, its
attempts to 0 and its last_error to empty (refreshing `updated_at`), leaves
every other task and every other field unchanged, and applying `reset`
twice yields the same queue as applying it once. -/
theorem cmdResetTasks_claim (now now2 taskID : String) (tasks tasks' : List Task) :
    (cmdResetTasks now taskID tasks = some tasks' →
      ∃ i, findTaskIndex tasks taskID = some i ∧ i < tasks.length ∧
        tasks'.length = tasks.length ∧
        (tasks'.getD i default).status = statusTodo ∧
        (tasks'.getD i default).attempts = 0 ∧
        (tasks'.getD i default).lastError = "" ∧
        (tasks'.getD i default).updatedAt = now ∧
        (tasks'.getD i default).id = (tasks.getD i default).id ∧
        (tasks'.getD i default).title = (tasks.getD i default).title ∧
        (tasks'.getD i default).spec = (tasks.getD i default).spec ∧
        (tasks'.getD i default).verify = (tasks.getD i default).verify ∧
        (tasks'.getD i default).modelHint = (tasks.getD i default).modelHint ∧
        (tasks'.getD i default).priority = (tasks.getD i default).priority ∧
        (tasks'.getD i default).source = (tasks.getD i default).source ∧
        (tasks'.getD i default).createdAt = (tasks.getD i default).createdAt ∧
        ∀ j, j ≠ i → tasks'.getD j default = tasks.getD j default) ∧
    (cmdResetTasks now2 taskID tasks).bind (cmdResetTasks now taskID)
      = cmdResetTasks now taskID tasks := by
  constructor
  · intro heq
    unfold cmdResetTasks at heq
    cases hf : findTaskIndex tasks taskID with
    | none => rw [hf] at heq; exact absurd heq (by simp)
    | some i =>
      rw [hf] at heq
      have hlen : i < tasks.length :=
        ((firstIdxWith_eq_some_iff _ tasks i).mp hf).1
      have htasks' : tasks' = tasks.set i (resetTask now (tasks.getD i default)) := by
        simpa using heq.symm
      subst htasks'
      refine ⟨i, rfl, hlen, by simp, ?_⟩
      rw [getD_set_self tasks i _ hlen]
      exact ⟨rfl, rfl, rfl, rfl, rfl, rfl, rfl, rfl, rfl, rfl, rfl, rfl,
        fun j hj => getD_set_ne tasks i j _ (fun he => hj (by rw [he]))⟩
  · cases hf : findTaskIndex tasks taskID with
    | none => simp [cmdResetTasks, hf]
    | some i =>
      have hlen : i < tasks.length :=
        ((firstIdxWith_eq_some_iff _ tasks i).mp hf).1
      have hf2 : findTaskIndex (tasks.set i (resetTask now2 (tasks.getD i default))) taskID
          = some i := by
        unfold findTaskIndex
        rw [firstIdxWith_set_of_eq (fun t => t.id == taskID) tasks i
          (resetTask now2 (tasks.getD i default)) rfl]
        exact hf
      have h1 : cmdResetTasks now2 taskID tasks
          = some (tasks.set i (resetTask now2 (tasks.getD i default))) := by
        unfold cmdResetTasks
        rw [hf]
      rw [h1]
      show cmdResetTasks now taskID (tasks.set i (resetTask now2 (tasks.getD i default)))
        = cmdResetTasks now taskID tasks
      unfold cmdResetTasks
      rw [hf2, hf]
      show some ((tasks.set i (resetTask now2 (tasks.getD i default))).set i
          (resetTask now ((tasks.set i (resetTask now2 (tasks.getD i default))).getD i default)))
        = some (tasks.set i (resetTask now (tasks.getD i default)))
      rw [getD_set_self tasks i (resetTask now2 (tasks.getD i default)) hlen, List.set_set]
      rfl

/-- Witness for C9: resetting a concrete failed task with two attempts
yields `todo` with zero attempts and empty last error, other tasks and
fields untouched. -/
theorem cmdResetTasks_claim_witness :
    ∃ i, findTaskIndex [sampleTask "OB-007" "blocked" 2] "OB-007" = some i ∧
      i < [sampleTask "OB-007" "blocked" 2].length ∧
      [resetTask "T1" (sampleTask "OB-007" "blocked" 2)].length
        = [sampleTask "OB-007" "blocked" 2].length ∧
      (([resetTask "T1" (sampleTask "OB-007" "blocked" 2)].getD i default).status
        = statusTodo) ∧
      (([resetTask "T1" (sampleTask "OB-007" "blocked" 2)].getD i default).attempts = 0) ∧
      (([resetTask "T1" (sampleTask "OB-007" "blocked" 2)].getD i default).lastError = "") ∧
      (([resetTask "T1" (sampleTask "OB-007" "blocked" 2)].getD i default).updatedAt
        = "T1") ∧
      (([resetTask "T1" (sampleTask "OB-007" "blocked" 2)].getD i default).id
        = (([sampleTask "OB-007" "blocked" 2] : List Task).getD i default).id) ∧
      (([resetTask "T1" (sampleTask "OB-007" "blocked" 2)].getD i default).title
        = (([sampleTask "OB-007" "blocked" 2] : List Task).getD i default).title) ∧
      (([resetTask "T1" (sampleTask "OB-007" "blocked" 2)].getD i default).spec
        = (([sampleTask "OB-007" "blocked" 2] : List Task).getD i default).spec) ∧
      (([resetTask "T1" (sampleTask "OB-007" "blocked" 2)].getD i default).verify
        = (([sampleTask "OB-007" "blocked" 2] : List Task).getD i default).verify) ∧
      (([resetTask "T1" (sampleTask "OB-007" "blocked" 2)].getD i default).modelHint
        = (([sampleTask "OB-007" "blocked" 2] : List Task).getD i default).modelHint) ∧
      (([resetTask "T1" (sampleTask "OB-007" "blocked" 2)].getD i default).priority
        = (([sampleTask "OB-007" "blocked" 2] : List Task).getD i default).priority) ∧
      (([resetTask "T1" (sampleTask "OB-007" "blocked" 2)].getD i default).source
        = (([sampleTask "OB-007" "blocked" 2] : List Task).getD i default).source) ∧
      (([resetTask "T1" (sampleTask "OB-007" "blocked" 2)].getD i default).createdAt
        = (([sampleTask "OB-007" "blocked" 2] : List Task).getD i default).createdAt) ∧
      ∀ j, j ≠ i →
        ([resetTask "T1" (sampleTask "OB-007" "blocked" 2)] : List Task).getD j default
          = ([sampleTask "OB-007" "blocked" 2] : List Task).getD j default :=
  (cmdResetTasks_claim "T1" "T0" "OB-007" [sampleTask "OB-007" "blocked" 2]
    [resetTask "T1" (sampleTask "OB-007" "blocked" 2)]).1 (by decide)

/-- C5: whenever a processed task's execution ends in error (agent failure,
verify failure, or commit-gate failure — i.e. the iteration's `execErr` is
set), the loop increments `attempts` by exactly one and sets `last_error`
to the error text; the new status is `blocked` if the pre-increment
attempts + 1 ≥ K and `failed` otherwise, so a task the loop marks `failed`
has `attempts < K` and the loop never marks a task `todo`. Other tasks are
untouched and the run record carries the error. -/
theorem goIteration_failure_claim (env : AgentEnv) (K : Int) (rc : Bool)
    (tasks : List Task) (idx : Nat) (e : String)
    (hidx : idx < tasks.length)
    (herr : (goIteration env K rc tasks idx).execErr = some e) :
    ((goIteration env K rc tasks idx).tasks.getD idx default).attempts
        = (tasks.getD idx default).attempts + 1 ∧
    ((goIteration env K rc tasks idx).tasks.getD idx default).lastError = e ∧
    ((goIteration env K rc tasks idx).tasks.getD idx default).updatedAt = env.now ∧
    ((goIteration env K rc tasks idx).tasks.getD idx default).status
        = (if (tasks.getD idx default).attempts + 1 ≥ K then statusBlocked
           else statusFailed) ∧
    (((goIteration env K rc tasks idx).tasks.getD idx default).status = statusFailed →
      ((goIteration env K rc tasks idx).tasks.getD idx default).attempts < K) ∧
    ((goIteration env K rc tasks idx).tasks.getD idx default).status ≠ statusTodo ∧
    (∀ j, j ≠ idx →
      (goIteration env K rc tasks idx).tasks.getD j default = tasks.getD j default) ∧
    (goIteration env K rc tasks idx).run.error = e := by
  cases h : iterExecErr env rc (tasks.getD idx default) with
  | none =>
    have : (goIteration env K rc tasks idx).execErr = none := by
      simp only [goIteration]
      rw [h]
    rw [this] at herr
    exact absurd herr (by simp)
  | some e' =>
    have htasks : (goIteration env K rc tasks idx).tasks =
        tasks.set idx
          { tasks.getD idx default with
              attempts := (tasks.getD idx default).attempts + 1, lastError := e',
              updatedAt := env.now,
              status := if (tasks.getD idx default).attempts + 1 ≥ K then statusBlocked
                else statusFailed } := by
      simp only [goIteration]
      rw [h]
    have hrunerr : (goIteration env K rc tasks idx).run.error = e' := by
      simp only [goIteration]
      rw [h]
    have hexec : (goIteration env K rc tasks idx).execErr = some e' := by
      simp only [goIteration]
      rw [h]
    rw [hexec] at herr
    have he : e' = e := Option.some.inj herr
    subst he
    rw [htasks, getD_set_self tasks idx _ hidx]
    refine ⟨rfl, rfl, rfl, rfl, ?_, ?_,
      fun j hj => getD_set_ne tasks idx j _ (fun hcontra => hj (by rw [hcontra])), hrunerr⟩
    · intro hst
      by_cases hK : (tasks.getD idx default).attempts + 1 ≥ K
      · rw [show ({ tasks.getD idx default with
            attempts := (tasks.getD idx default).attempts + 1, lastError := e',
            updatedAt := env.now,
            status := if (tasks.getD idx default).attempts + 1 ≥ K then statusBlocked
              else statusFailed } : Task).status
            = (if (tasks.getD idx default).attempts + 1 ≥ K then statusBlocked
               else statusFailed) from rfl, if_pos hK] at hst
        exact absurd hst (by decide)
      · show ({ tasks.getD idx default with
            attempts := (tasks.getD idx default).attempts + 1, lastError := e',
            updatedAt := env.now,
            status := if (tasks.getD idx default).attempts + 1 ≥ K then statusBlocked
              else statusFailed } : Task).attempts < K
        show (tasks.getD idx default).attempts + 1 < K
        omega
    · by_cases hK : (tasks.getD idx default).attempts + 1 ≥ K
      · show (if (tasks.getD idx default).attempts + 1 ≥ K then statusBlocked
            else statusFailed) ≠ statusTodo
        rw [if_pos hK]
        decide
      · show (if (tasks.getD idx default).attempts + 1 ≥ K then statusBlocked
            else statusFailed) ≠ statusTodo
        rw [if_neg hK]
        decide

/-- Environment whose primary agent fails with an unclassifiable error;
verify and git probes succeed. -/
def failEnv : AgentEnv :=
  { agent := fun _ _ => ("", some "boom"), verify := fun _ => ("", none),
    headPre := .ok "h", headPost := .ok "h", now := "T1" }

/-- Witness for C5: a concrete agent failure on a fresh task increments
attempts to 1, records the error, and marks the task `failed` (1 < 2). -/
theorem goIteration_failure_claim_witness :
    ((goIteration failEnv 2 false [sampleTask "OB-001" "todo" 0] 0).tasks.getD 0
        default).attempts
      = (([sampleTask "OB-001" "todo" 0] : List Task).getD 0 default).attempts + 1 ∧
    ((goIteration failEnv 2 false [sampleTask "OB-001" "todo" 0] 0).tasks.getD 0
        default).lastError = "boom" ∧
    ((goIteration failEnv 2 false [sampleTask "OB-001" "todo" 0] 0).tasks.getD 0
        default).updatedAt = failEnv.now ∧
    ((goIteration failEnv 2 false [sampleTask "OB-001" "todo" 0] 0).tasks.getD 0
        default).status
      = (if (([sampleTask "OB-001" "todo" 0] : List Task).getD 0 default).attempts + 1 ≥ 2
         then statusBlocked else statusFailed) ∧
    (((goIteration failEnv 2 false [sampleTask "OB-001" "todo" 0] 0).tasks.getD 0
        default).status = statusFailed →
      ((goIteration failEnv 2 false [sampleTask "OB-001" "todo" 0] 0).tasks.getD 0
        default).attempts < 2) ∧
    ((goIteration failEnv 2 false [sampleTask "OB-001" "todo" 0] 0).tasks.getD 0
        default).status ≠ statusTodo ∧
    (∀ j, j ≠ 0 →
      (goIteration failEnv 2 false [sampleTask "OB-001" "todo" 0] 0).tasks.getD j default
        = ([sampleTask "OB-001" "todo" 0] : List Task).getD j default) ∧
    (goIteration failEnv 2 false [sampleTask "OB-001" "todo" 0] 0).run.error = "boom" :=
  goIteration_failure_claim failEnv 2 false [sampleTask "OB-001" "todo" 0] 0 "boom"
    (by decide) (by decide)

/-- C3 (amended): in every non-dry-run iteration the store writes are, in
program order, the `in_progress` save, then (on success) the learnings
append, then the run-record append, and the terminal task save comes last —
i.e. the run append happens before, not after, the terminal persist. -/
theorem goIteration_event_order (env : AgentEnv) (K : Int) (rc : Bool)
    (tasks : List Task) (idx : Nat) :
    ∃ ts1 mid, (goIteration env K rc tasks idx).events
        = StoreEvent.saveTasks ts1 :: mid
            ++ [StoreEvent.appendRun (goIteration env K rc tasks idx).run,
                StoreEvent.saveTasks (goIteration env K rc tasks idx).tasks] ∧
      ∀ ev ∈ mid, ∃ s, ev = StoreEvent.appendLearn s := by
  cases h : iterExecErr env rc (tasks.getD idx default) with
  | some e =>
    refine ⟨tasks.set idx { tasks.getD idx default with
        status := statusInProgress, updatedAt := env.now }, [], ?_, by simp⟩
    simp only [goIteration]
    rw [h]
    rfl
  | none =>
    refine ⟨tasks.set idx { tasks.getD idx default with
        status := statusInProgress, updatedAt := env.now },
      ["- [" ++ env.now ++ "] " ++ (tasks.getD idx default).id ++ " completed ("
        ++ (tasks.getD idx default).title ++ ")\n"].map StoreEvent.appendLearn, ?_,
      by simp⟩
    simp only [goIteration]
    rw [h]
    rfl

/-- Environment whose agent and verify commands succeed and whose head
advances across the task. -/
def okEnv : AgentEnv :=
  { agent := fun _ _ => ("done", none), verify := fun _ => ("ok", none),
    headPre := .ok "h", headPost := .ok "h2", now := "T1" }

/-- The sample task as persisted `in_progress` by the concrete C3 run. -/
def sampleInProgress : Task :=
  { sampleTask "OB-001" "todo" 0 with status := statusInProgress, updatedAt := "T1" }

/-- The sample task as persisted terminally (`done`) by the concrete C3 run. -/
def sampleDoneTask : Task :=
  { sampleTask "OB-001" "todo" 0 with status := statusDone, updatedAt := "T1" }

/-- Counterexample for C3: in a concrete successful iteration the event
trace is in_progress save, learnings append, run append, terminal save —
so no write of the terminal task state ever precedes the run-record
append, contradicting the claimed order. -/
theorem goIteration_order_counterexample :
    (goIteration okEnv 2 false [sampleTask "OB-001" "todo" 0] 0).events =
      [StoreEvent.saveTasks [sampleInProgress],
        StoreEvent.appendLearn "- [T1] OB-001 completed (t)\n",
        StoreEvent.appendRun (goIteration okEnv 2 false [sampleTask "OB-001" "todo" 0] 0).run,
        StoreEvent.saveTasks (goIteration okEnv 2 false [sampleTask "OB-001" "todo" 0] 0).tasks] ∧
    (goIteration okEnv 2 false [sampleTask "OB-001" "todo" 0] 0).tasks = [sampleDoneTask] ∧
    (∀ j, j < 4 → ∀ i, i < j →
      ¬((goIteration okEnv 2 false [sampleTask "OB-001" "todo" 0] 0).events.getD i
            (StoreEvent.appendLearn "")
          = StoreEvent.saveTasks (goIteration okEnv 2 false [sampleTask "OB-001" "todo" 0] 0).tasks ∧
        (goIteration okEnv 2 false [sampleTask "OB-001" "todo" 0] 0).events.getD j
            (StoreEvent.appendLearn "")
          = StoreEvent.appendRun (goIteration okEnv 2 false [sampleTask "OB-001" "todo" 0] 0).run)) := by
  decide

/-- Agent oracle whose `codex` primary fails with a 429 rate-limit error;
the fallback provider succeeds. -/
def rateLimitedAgent : String → String → String × Option String :=
  fun p _ => if p = "codex" then ("slow down", some "429 Too Many Requests") else ("ok", none)

/-- C2 (code evaluation): a primary failure classified with the transient
tag `rate_limit` triggers no backoff retry of the primary — the call trace
is exactly one primary invocation followed immediately by the fallback
invocation, with the transient tag recorded as the fallback reason. -/
theorem transientRetry_code_bug :
    classifyProviderFailure (some "429 Too Many Requests") "slow down" = "rate_limit" ∧
    (runAgentWithFallback rateLimitedAgent "codex" "").calls
      = [("codex", ""), ("claude", "sonnet")] ∧
    (runAgentWithFallback rateLimitedAgent "codex" "").fb
      = some ⟨"codex", "", "claude", "sonnet", "rate_limit"⟩ ∧
    (runAgentWithFallback rateLimitedAgent "codex" "").err = none := by
  decide

/-- Environment for an idle loop: no external effect is consumed because no
task is runnable. -/
def idleEnv : AgentEnv :=
  { agent := fun _ _ => ("", none), verify := fun _ => ("", none),
    headPre := .ok "h", headPost := .ok "h", now := "T1" }

/-- A task left `in_progress` on disk by a crashed run. -/
def orphanTask : Task :=
  { sampleTask "OB-001" "in_progress" 0 with lastError := "interrupted" }

/-- The loop state at entry of `cmdGo`'s main phase for a loaded queue. -/
def initialGoState (tasks : List Task) : GoState :=
  { tasks := tasks, processed := 0, doneCount := 0, failedCount := 0,
    blockedCount := 0, taskIds := [], events := [] }

/-- C1 (code evaluation): `cmdGo` performs no repair between loading tasks
and selecting: on a queue holding only an `in_progress` task the loop
selects nothing, processes nothing, writes nothing, and finishes with the
task still `in_progress` — it is neither reset to `todo` nor persisted. -/
theorem crashRecovery_code_bug :
    nextRunnableTaskIndex 2 [orphanTask] = none ∧
    (goLoop idleEnv 2 false false 0 5 (initialGoState [orphanTask])).tasks = [orphanTask] ∧
    (goLoop idleEnv 2 false false 0 5 (initialGoState [orphanTask])).events = [] ∧
    (goLoop idleEnv 2 false false 0 5 (initialGoState [orphanTask])).processed = 0 ∧
    orphanTask.status = statusInProgress ∧
    orphanTask.lastError = "interrupted" := by
  decide

end Obliviate
